import Mathlib

/-!
Verification of the candidate scoring and ranking engine of the HR-Agent
repository (`src/ranking.py`).

The Python code is shallowly embedded: Python `float` arithmetic is
idealised as `ℚ`, Python strings are Lean `String`s (character classes such
as `\d`, `\s` and `str.lower` are modelled on their ASCII behaviour, which
covers every string the code's own patterns can act on meaningfully),
Python dictionaries are association lists, and the ambient
`datetime.now().year` is an explicit `year` parameter.  Python `round(x, 1)`
is modelled as rounding to one decimal with ties going to an even final
digit.  Each definition mirrors one Python function of `ranking.py`.
-/

/-- Whitespace as matched by Python's `\s` and stripped by `str.strip`
(ASCII fragment: space, tab, newline, carriage return, vertical tab,
form feed). -/
def isSpaceChar (c : Char) : Bool :=
  c == ' ' || c == '\t' || c == '\n' || c == '\r' || c == Char.ofNat 11 || c == Char.ofNat 12

/-- Python `str.lower` (ASCII fragment). -/
def pyLower (s : String) : String :=
  String.mk (s.data.map Char.toLower)

/-- Python `str.strip()`: remove leading and trailing whitespace. -/
def pyStrip (s : String) : String :=
  String.mk (((s.data.dropWhile isSpaceChar).reverse.dropWhile isSpaceChar).reverse)

/-- Substring containment on character lists: `listIn n h` holds when `n`
occurs contiguously inside `h` (Python `n in h` for strings). -/
def listIn (needle : List Char) : List Char → Bool
  | [] => needle.isEmpty
  | c :: rest => needle.isPrefixOf (c :: rest) || listIn needle rest

/-- Python string containment `needle in hay`. -/
def pyIn (needle hay : String) : Bool :=
  listIn needle.data hay.data

/-- Embedding of `set(x.lower().strip() for x in l if x)`: drop falsy (empty)
raw entries, lower-case and strip, deduplicate.  The list stands for the
Python set; all uses below are order-independent counts and membership
tests. -/
def normStrSet (l : List String) : List String :=
  ((l.filter (fun s => !(s == ""))).map (fun s => pyStrip (pyLower s))).dedup

/-- Embedding of `compute_skill_similarity` (ranking.py lines 8-21). -/
def compute_skill_similarity (resume_skills required_skills : List String) : ℚ :=
  let rs := normStrSet resume_skills
  let js := normStrSet required_skills
  if js.isEmpty then 0
  else
    let nMatches := rs.countP (fun r => js.contains r)
    let pairs := (rs.map (fun r => js.countP (fun j => pyIn r j || pyIn j r))).sum
    let pmatches : ℤ := (pairs : ℤ) - (nMatches : ℤ)
    let score : ℚ := (nMatches : ℚ) * 5 + (pmatches : ℚ) * 2
    let max_possible : ℚ := (js.length : ℚ) * 5
    if 0 < max_possible then min (score / max_possible) 1 * 50 else 0

/-- Digits of a decimal natural number literal. -/
def natOfDigits (l : List Char) : ℕ :=
  l.foldl (fun n c => 10 * n + (c.toNat - 48)) 0

/-- Value of `float(d₁ ++ "." ++ d₂)` for digit strings `d₁`, `d₂` (the
fractional part may be empty). -/
def ratOfNum (ip fp : List Char) : ℚ :=
  (natOfDigits ip : ℚ) + (natOfDigits fp : ℚ) / (10 : ℚ) ^ fp.length

/-- Attempt of the regex `(\d+\.?\d*)\s*years?` (case-insensitive) at the
head of the list.  The regex's backtracking is deterministic here: the digit
run is consumed whole, an immediately following dot together with the digit
run after it is consumed whole or the attempt fails, and then optional
whitespace and the literal `year` must follow. -/
def matchYearsAt (l : List Char) : Option ℚ :=
  match l with
  | [] => none
  | c :: _ =>
    if c.isDigit then
      let ip := l.takeWhile Char.isDigit
      let r1 := l.dropWhile Char.isDigit
      let fpRest : List Char × List Char :=
        match r1 with
        | '.' :: t => (t.takeWhile Char.isDigit, t.dropWhile Char.isDigit)
        | _ => ([], r1)
      let after := fpRest.2.dropWhile isSpaceChar
      if [ 'y', 'e', 'a', 'r' ].isPrefixOf (after.map Char.toLower) then
        some (ratOfNum ip fpRest.1)
      else none
    else none

/-- `re.search(r"(\d+\.?\d*)\s*years?", exp, IGNORECASE)`: value of the
leftmost match, if any. -/
def searchYears : List Char → Option ℚ
  | [] => none
  | c :: rest =>
    match matchYearsAt (c :: rest) with
    | some q => some q
    | none => searchYears rest

/-- Attempt of the regex `(\d{4})\s*[-–]\s*(present|current|\d{4})` at the
head of the (already lower-cased) list; on success returns the start year,
the resolved end year (`present`/`current` resolve to `year`) and the
remainder of the list after the match. -/
def matchDateAt (year : ℕ) (l : List Char) : Option (ℕ × ℕ × List Char) :=
  match l with
  | a :: b :: c :: d :: rest =>
    if a.isDigit && b.isDigit && c.isDigit && d.isDigit then
      let startN := natOfDigits [a, b, c, d]
      match rest.dropWhile isSpaceChar with
      | sep :: r2 =>
        if sep == '-' || sep == '–' then
          let r3 := r2.dropWhile isSpaceChar
          if [ 'p', 'r', 'e', 's', 'e', 'n', 't' ].isPrefixOf r3 then
            some (startN, year, r3.drop 7)
          else if [ 'c', 'u', 'r', 'r', 'e', 'n', 't' ].isPrefixOf r3 then
            some (startN, year, r3.drop 7)
          else
            match r3 with
            | e :: f :: g :: h :: r4 =>
              if e.isDigit && f.isDigit && g.isDigit && h.isDigit then
                some (startN, natOfDigits [e, f, g, h], r4)
              else none
            | _ => none
        else none
      | [] => none
    else none
  | _ => none

/-- `re.findall` for the date-range pattern: scan left to right, restart
after each match.  `fuel` bounds the recursion; every step strictly shortens
the list, so `fuel = l.length` (as used in `findDates`) is always enough. -/
def findDatesGo (year : ℕ) : ℕ → List Char → List (ℕ × ℕ)
  | 0, _ => []
  | _, [] => []
  | fuel + 1, c :: rest =>
    match matchDateAt year (c :: rest) with
    | some (s, e, after) => (s, e) :: findDatesGo year fuel after
    | none => findDatesGo year fuel rest

/-- All date-range matches in a character list. -/
def findDates (year : ℕ) (l : List Char) : List (ℕ × ℕ) :=
  findDatesGo year l.length l

/-- Years contributed by the date ranges of one experience entry:
`max(end_year - start_year, 0)` summed over all matches in the lower-cased
entry. -/
def dateRangeYears (year : ℕ) (e : String) : ℚ :=
  ((findDates year (pyLower e).data).map (fun p => ((max ((p.2 : ℤ) - (p.1 : ℤ)) 0 : ℤ) : ℚ))).sum

/-- Years contributed by one experience entry: the duration regex first,
and only when it fails the date ranges (ranking.py lines 28-38). -/
def entryYears (year : ℕ) (e : String) : ℚ :=
  match searchYears e.data with
  | some q => q
  | none => dateRangeYears year e

/-- Embedding of `compute_experience_score` (ranking.py lines 23-42);
`year` stands for `datetime.now().year`. -/
def compute_experience_score (resume_experience : List String) (required_exp : ℚ)
    (year : ℕ) : ℚ :=
  let total_years := resume_experience.foldl (fun acc e => acc + entryYears year e) 0
  if required_exp ≤ 0 then
    if 0 < total_years then 30 else 0
  else
    if 0 < total_years then min (total_years / required_exp) 1 * 30 else 0

/-- The fixed degree-level table of `compute_education_similarity`. -/
def degreeKeywords : List (String × ℕ) :=
  [("associate", 1), ("diploma", 1), ("bachelor", 2), ("bs", 2), ("ba", 2),
   ("master", 3), ("ms", 3), ("mba", 3), ("phd", 4), ("doctorate", 4)]

/-- Derived degree level of an education entry: maximum level of a table
keyword contained in the entry, `0` if none occurs. -/
def eduLevel (s : String) : ℕ :=
  degreeKeywords.foldl (fun m kv => if pyIn kv.1 s then max m kv.2 else m) 0

/-- Condition of the inner education loop: the requirement entry `j` has
positive level and the resume entry `r` reaches it. -/
def eduCovers (r j : String) : Bool :=
  decide (0 < eduLevel j) && decide (eduLevel j ≤ eduLevel r)

/-- Embedding of `compute_education_similarity` (ranking.py lines 44-69).
The Python outer loop runs over resume entries and `break`s after the first
requirement the entry covers, so `matches` counts resume entries that cover
some requirement. -/
def compute_education_similarity (resume_edu required_edu : List String) : ℚ :=
  let rs := normStrSet resume_edu
  let js := normStrSet required_edu
  if js.isEmpty then 0
  else
    let nMatches := rs.countP (fun r => js.any (fun j => eduCovers r j))
    let score : ℚ := (nMatches : ℚ) * 10
    let max_possible : ℚ := (js.length : ℚ) * 10
    if 0 < max_possible then min (score / max_possible) 1 * 15 else 0

/-- The generic certification vocabulary of `compute_certification_similarity`. -/
def genericCertWords : List String :=
  ["certified", "certification", "license", "credential"]

/-- Condition of the inner certification loop. -/
def certMatchesEntry (r j : String) : Bool :=
  pyIn r j || pyIn j r || genericCertWords.any (fun kw => pyIn kw r)

/-- Embedding of `compute_certification_similarity` (ranking.py lines
71-88).  As in the education score, the outer loop runs over resume
entries, so `matches` counts resume entries matching some requirement. -/
def compute_certification_similarity (resume_certs required_certs : List String) : ℚ :=
  let rs := normStrSet resume_certs
  let js := normStrSet required_certs
  if js.isEmpty then 0
  else
    let nMatches := rs.countP (fun r => js.any (fun j => certMatchesEntry r j))
    let score : ℚ := (nMatches : ℚ) * 5
    let max_possible : ℚ := (js.length : ℚ) * 5
    if 0 < max_possible then min (score / max_possible) 1 * 5 else 0

/-- Python values that can sit in a resume dictionary.  The scoring code's
contract (spec §7) requires the four scored fields, when present, to be
lists of strings; other values are a caller-side type violation, which the
embedding totalises by reading them as the empty list in `asList`. -/
inductive PyVal where
  | vStr : String → PyVal
  | vList : List String → PyVal
  | vNum : ℚ → PyVal
deriving DecidableEq

/-- A Python dictionary with string keys (first binding wins, as a `dict`
has unique keys). -/
abbrev PyDict := List (String × PyVal)

/-- `d[k]` as an optional value. -/
def dlookup (d : PyDict) (k : String) : Option PyVal :=
  (d.find? (fun p => p.1 == k)).map (fun p => p.2)

/-- Python `d.get(k, dflt)`. -/
def dictGet (d : PyDict) (k : String) (dflt : PyVal) : PyVal :=
  (dlookup d k).getD dflt

/-- Read a value as a list of strings (see `PyVal`). -/
def asList : PyVal → List String
  | .vList l => l
  | _ => []

/-- `d.get(k, [])` read as a list of strings. -/
def getL (d : PyDict) (k : String) : List String :=
  asList (dictGet d k (PyVal.vList []))

/-- The `job_data` dictionary.  The spec's data model (§3) makes all four
fields mandatory, so it is embedded as a structure; `job_data.get(key, dflt)`
and `job_data[key]` both read the field. -/
structure JobData where
  required_skills : List String
  required_experience : ℚ
  required_education : List String
  required_certifications : List String
deriving DecidableEq

/-- Splitting on maximal runs of separator characters, as
`re.split(r'[,\s;]+', s)`: pieces between separator runs, including empty
pieces at the borders; the empty string yields the single piece `""`.
`fuel` bounds the recursion; each step strictly shortens the list, so
`fuel = l.length` (as used in `splitSeps`) is always enough. -/
def splitSepsGo (isSep : Char → Bool) : ℕ → List Char → List (List Char)
  | 0, l => [l]
  | fuel + 1, l =>
    let piece := l.takeWhile (fun c => !isSep c)
    match l.dropWhile (fun c => !isSep c) with
    | [] => [piece]
    | _ :: rest => piece :: splitSepsGo isSep fuel (rest.dropWhile isSep)

/-- Separator class of the ATS tokenizer: `[,\s;]`. -/
def isSepChar (c : Char) : Bool :=
  c == ',' || c == ';' || isSpaceChar c

/-- `re.split(r'[,\s;]+', s)` as a list of strings. -/
def splitSeps (s : String) : List String :=
  (splitSepsGo isSepChar s.data.length s.data).map (fun cs => String.mk cs)

/-- The token set (deduplicated) of a text, as built by `compute_ats_score`. -/
def tokensOf (s : String) : List String :=
  (splitSeps s).dedup

/-- Python `" ".join(l)`. -/
def joinSp (l : List String) : String :=
  String.intercalate " " l

/-- The lower-cased concatenated resume text of `compute_ats_score`. -/
def resumeTextOf (resume : PyDict) : String :=
  pyLower (joinSp (getL resume "skills" ++ getL resume "experience"
    ++ getL resume "education" ++ getL resume "certifications"))

/-- The lower-cased concatenated job text of `compute_ats_score`. -/
def jobTextOf (job : JobData) : String :=
  pyLower (joinSp (job.required_skills ++ job.required_education
    ++ job.required_certifications))

/-- Keyword-coverage component of the ATS score (ranking.py lines 96-100):
`min(keyword_matches / len(job_keywords), 1.0) * 10 if job_keywords else 0`. -/
def atsKeywordComponent (resume : PyDict) (job : JobData) : ℚ :=
  let job_keywords := tokensOf (jobTextOf job)
  let resume_keywords := tokensOf (resumeTextOf resume)
  let keyword_matches := job_keywords.countP (fun t => resume_keywords.contains t)
  if job_keywords.isEmpty then 0
  else min ((keyword_matches : ℚ) / (job_keywords.length : ℚ)) 1 * 10

/-- Section-presence component of the ATS score: +2 per non-empty field. -/
def atsSectionBonus (resume : PyDict) : ℚ :=
  (if (getL resume "skills").isEmpty then 0 else 2)
    + (if (getL resume "experience").isEmpty then 0 else 2)
    + (if (getL resume "education").isEmpty then 0 else 2)
    + (if (getL resume "certifications").isEmpty then 0 else 2)

/-- Length component of the ATS score: `min(len(resume_text) / 200, 4)`. -/
def atsLengthBonus (resume : PyDict) : ℚ :=
  min (((resumeTextOf resume).length : ℚ) / 200) 4

/-- The ATS score before the final cap. -/
def atsRaw (resume : PyDict) (job : JobData) : ℚ :=
  atsKeywordComponent resume job + atsSectionBonus resume + atsLengthBonus resume

/-- Embedding of `compute_ats_score` (ranking.py lines 90-116). -/
def compute_ats_score (resume : PyDict) (job : JobData) : ℚ :=
  min (atsRaw resume job) 20

/-- Python `round(q, 1)`: nearest multiple of one tenth, ties to an even
final digit. -/
def round1 (q : ℚ) : ℚ :=
  let n := q * 10
  let f : ℤ := ⌊n⌋
  let r : ℤ :=
    if n - f < 1/2 then f
    else if 1/2 < n - f then f + 1
    else if f % 2 = 0 then f else f + 1
  (r : ℚ) / 10

/-- The fresh four-key resume dictionary built at the top of the
`rank_candidates` loop (ranking.py lines 123-128). -/
def normalizeResume (r : PyDict) : PyDict :=
  [("skills", dictGet r "skills" (PyVal.vList [])),
   ("experience", dictGet r "experience" (PyVal.vList [])),
   ("education", dictGet r "education" (PyVal.vList [])),
   ("certifications", dictGet r "certifications" (PyVal.vList []))]

/-- Exact (unrounded) composite score of one resume against a job. -/
def totalExact (job : JobData) (year : ℕ) (r : PyDict) : ℚ :=
  let resume := normalizeResume r
  compute_skill_similarity (getL resume "skills") job.required_skills
    + compute_experience_score (getL resume "experience") job.required_experience year
    + compute_education_similarity (getL resume "education") job.required_education
    + compute_certification_similarity (getL resume "certifications") job.required_certifications
    + compute_ats_score resume job

/-- One entry of `scored_candidates`. -/
structure ScoredCandidate where
  score : ℚ
  ats_score : ℚ
  resume : PyDict
deriving DecidableEq, Inhabited

/-- Scoring body of the `rank_candidates` loop (ranking.py lines 122-144). -/
def scoreResume (job : JobData) (year : ℕ) (r : PyDict) : ScoredCandidate :=
  { score := round1 (totalExact job year r),
    ats_score := round1 (compute_ats_score (normalizeResume r) job),
    resume := normalizeResume r }

/-- Comparison used by `scored_candidates.sort(key=..., reverse=True)`:
`a` may precede `b` when its score is at least `b`'s.  Python's sort is
stable, so the embedding uses insertion sort with this relation, which
keeps equal-scored candidates in input order exactly as a stable
descending sort does. -/
def scoreGe (a b : ScoredCandidate) : Prop :=
  b.score ≤ a.score

instance : DecidableRel scoreGe :=
  fun a b => inferInstanceAs (Decidable (b.score ≤ a.score))

instance : IsTotal ScoredCandidate scoreGe :=
  ⟨fun a b => le_total b.score a.score⟩

instance : IsTrans ScoredCandidate scoreGe :=
  ⟨fun _ _ _ hab hbc => le_trans hbc hab⟩

/-- A candidate after `candidate["rank"]` has been assigned. -/
structure RankedCandidate where
  score : ℚ
  ats_score : ℚ
  resume : PyDict
  rank : ℕ
deriving DecidableEq, Inhabited

/-- `enumerate(scored_candidates, start=n)` turned into rank assignments. -/
def addRanksFrom : ℕ → List ScoredCandidate → List RankedCandidate
  | _, [] => []
  | n, c :: rest =>
    { score := c.score, ats_score := c.ats_score, resume := c.resume, rank := n }
      :: addRanksFrom (n + 1) rest

/-- Embedding of `rank_candidates` (ranking.py lines 118-153); `year`
stands for `datetime.now().year` used by the experience score. -/
def rank_candidates (resume_data_list : List PyDict) (job_data : JobData) (year : ℕ) :
    List RankedCandidate :=
  addRanksFrom 1 (List.insertionSort scoreGe (resume_data_list.map (scoreResume job_data year)))

/-- Forget the rank of a ranked candidate. -/
def toScored (c : RankedCandidate) : ScoredCandidate :=
  { score := c.score, ats_score := c.ats_score, resume := c.resume }

/-- Normalization as claim C5 words it: lower-case, trim and deduplicate
(without the code's prior dropping of falsy raw entries). -/
def claimNormSet (l : List String) : List String :=
  (l.map (fun s => pyStrip (pyLower s))).dedup

/-- Skill score as claim C5 states it, over `claimNormSet`-normalized
sides. -/
def skill_similarity_claim (resume_skills required_skills : List String) : ℚ :=
  let rs := claimNormSet resume_skills
  let js := claimNormSet required_skills
  if js.isEmpty then 0
  else
    let ex := rs.countP (fun r => js.contains r)
    let pairs := (rs.map (fun r => js.countP (fun j => pyIn r j || pyIn j r))).sum
    min (((ex : ℚ) * 5 + ((((pairs : ℤ) - (ex : ℤ)) : ℤ) : ℚ) * 2) / ((js.length : ℚ) * 5)) 1 * 50

/-- Skill score as amended: raw entries equal to `""` are discarded before
normalization (entries that only become empty after trimming are kept),
then the claim's formula applies. -/
def skill_similarity_amended (resume_skills required_skills : List String) : ℚ :=
  let rs := claimNormSet (resume_skills.filter (fun s => !(s == "")))
  let js := claimNormSet (required_skills.filter (fun s => !(s == "")))
  if js.isEmpty then 0
  else
    let ex := rs.countP (fun r => js.contains r)
    let pairs := (rs.map (fun r => js.countP (fun j => pyIn r j || pyIn j r))).sum
    min (((ex : ℚ) * 5 + ((((pairs : ℤ) - (ex : ℤ)) : ℤ) : ℚ) * 2) / ((js.length : ℚ) * 5)) 1 * 50

/-- Education score as claim C2 states it: `matches` counts distinct
covered REQUIREMENT entries (each requirement at most once). -/
def education_similarity_claim (resume_edu required_edu : List String) : ℚ :=
  let rs := normStrSet resume_edu
  let js := normStrSet required_edu
  if js.isEmpty then 0
  else
    let m := js.countP (fun j => rs.any (fun r => eduCovers r j))
    min (((m : ℚ) * 10) / ((js.length : ℚ) * 10)) 1 * 15

/-- Education score as amended: `matches` counts distinct RESUME entries,
each at most once, an entry counting when it covers some requirement. -/
def education_similarity_amended (resume_edu required_edu : List String) : ℚ :=
  let rs := normStrSet resume_edu
  let js := normStrSet required_edu
  if js.isEmpty then 0
  else
    let m := rs.countP (fun r => js.any (fun j => eduCovers r j))
    min (((m : ℚ) * 10) / ((js.length : ℚ) * 10)) 1 * 15

/-- Certification score as claim C3 states it: `matches` counts REQUIRED
certifications matched at most once each. -/
def certification_similarity_claim (resume_certs required_certs : List String) : ℚ :=
  let rs := normStrSet resume_certs
  let js := normStrSet required_certs
  if js.isEmpty then 0
  else
    let m := js.countP (fun j => rs.any (fun r => certMatchesEntry r j))
    min (((m : ℚ) * 5) / ((js.length : ℚ) * 5)) 1 * 5

/-- Certification score as amended: `matches` counts RESUME certification
entries, each at most once, an entry counting when it matches some required
certification (or carries the generic vocabulary). -/
def certification_similarity_amended (resume_certs required_certs : List String) : ℚ :=
  let rs := normStrSet resume_certs
  let js := normStrSet required_certs
  if js.isEmpty then 0
  else
    let m := rs.countP (fun r => js.any (fun j => certMatchesEntry r j))
    min (((m : ℚ) * 5) / ((js.length : ℚ) * 5)) 1 * 5

/-- A job posting requiring a skill, one year of experience, a PhD and an
AWS certification; a resume meeting all of it scores above 100. -/
def cxJob : JobData :=
  ⟨["python"], 1, ["phd"], ["aws"]⟩

/-- A resume meeting every requirement of `cxJob`. -/
def cxResume : PyDict :=
  [("skills", PyVal.vList ["python"]), ("experience", PyVal.vList ["2 years"]),
   ("education", PyVal.vList ["phd"]), ("certifications", PyVal.vList ["aws certified"])]

/-- A job posting with an empty requirement side. -/
def cxJobEmpty : JobData :=
  ⟨[], 0, [], []⟩

/-- Job used by the rounding counterexample of claim C9. -/
def tieJob : JobData :=
  ⟨["x"], 0, [], []⟩

/-- First C9 resume: exact composite `62.005`, reported score `62.0`. -/
def tieResumeA : PyDict :=
  [("skills", PyVal.vList ["x"])]

/-- Second C9 resume: exact composite `62.06`, reported score `62.1`. -/
def tieResumeB : PyDict :=
  [("skills", PyVal.vList ["x", "yyyyyyyyyy"])]

/-- An empty resume dictionary (scores equal to `pairResumeB`'s). -/
def pairResumeA : PyDict :=
  []

/-- A resume with an explicit empty skill list (scores equal to
`pairResumeA`'s while being a different dictionary). -/
def pairResumeB : PyDict :=
  [("skills", PyVal.vList [])]

/-- Resume whose ATS components sum to `22` before the final cap: full
keyword coverage (10), all four sections present (8) and more than 800
characters of text (4). -/
def ats22Resume : PyDict :=
  [("skills", PyVal.vList ["sk"]), ("experience", PyVal.vList ["e"]),
   ("education", PyVal.vList ["ed"]),
   ("certifications", PyVal.vList [String.mk (List.replicate 800 'a')])]

/-- Job matching `ats22Resume`'s single skill token. -/
def ats22Job : JobData :=
  ⟨["sk"], 0, [], []⟩

/-- A resume carrying a contact key that the engine must not copy to the
output. -/
def extraKeyResume : PyDict :=
  [("email", PyVal.vStr "a@b.example"), ("skills", PyVal.vList ["python"])]

lemma minMulBounds (x c : ℚ) (hx : 0 ≤ x) (hc : 0 ≤ c) :
    0 ≤ min x 1 * c ∧ min x 1 * c ≤ c := by
  constructor
  · exact mul_nonneg (le_min hx (by norm_num)) hc
  · calc min x 1 * c ≤ 1 * c := mul_le_mul_of_nonneg_right (min_le_right x 1) hc
      _ = c := one_mul c

lemma foldl_add_eq_sum {α : Type} (f : α → ℚ) :
    ∀ (l : List α) (a : ℚ), l.foldl (fun acc e => acc + f e) a = a + (l.map f).sum := by
  intro l
  induction l with
  | nil => intro a; simp
  | cons x xs ih => intro a; simp [List.foldl_cons, ih, add_assoc]

lemma ratOfNum_nonneg (ip fp : List Char) : 0 ≤ ratOfNum ip fp := by
  unfold ratOfNum
  positivity

lemma matchYearsAt_nonneg {l : List Char} {q : ℚ} (h : matchYearsAt l = some q) : 0 ≤ q := by
  rcases l with _ | ⟨c, rest⟩
  · exact absurd h (by simp [matchYearsAt])
  · rw [matchYearsAt] at h
    dsimp only at h
    split_ifs at h
    rw [Option.some.injEq] at h
    exact h ▸ ratOfNum_nonneg _ _

lemma searchYears_nonneg : ∀ {l : List Char} {q : ℚ}, searchYears l = some q → 0 ≤ q := by
  intro l
  induction l with
  | nil => intro q h; exact absurd h (by simp [searchYears])
  | cons c rest ih =>
    intro q h
    rw [searchYears] at h
    rcases hm : matchYearsAt (c :: rest) with _ | q'
    · rw [hm] at h; exact ih h
    · rw [hm] at h; exact (Option.some.inj h) ▸ matchYearsAt_nonneg hm

lemma dateRangeYears_nonneg (year : ℕ) (e : String) : 0 ≤ dateRangeYears year e := by
  unfold dateRangeYears
  refine List.sum_nonneg ?_
  intro x hx
  obtain ⟨p, _, hp⟩ := List.mem_map.mp hx
  subst hp
  have : (0 : ℤ) ≤ max ((p.2 : ℤ) - (p.1 : ℤ)) 0 := le_max_right _ _
  exact_mod_cast this

lemma entryYears_nonneg (year : ℕ) (e : String) : 0 ≤ entryYears year e := by
  unfold entryYears
  rcases hm : searchYears e.data with _ | q
  · exact dateRangeYears_nonneg year e
  · exact searchYears_nonneg hm

lemma skill_bounds (a b : List String) :
    0 ≤ compute_skill_similarity a b ∧ compute_skill_similarity a b ≤ 50 := by
  unfold compute_skill_similarity
  dsimp only
  split_ifs with h1 h2
  · exact ⟨le_refl 0, by norm_num⟩
  · set m := (normStrSet a).countP (fun r => (normStrSet b).contains r) with hm
    set p := ((normStrSet a).map
      (fun r => (normStrSet b).countP (fun j => pyIn r j || pyIn j r))).sum with hp
    have hmq : (0 : ℚ) ≤ (m : ℚ) := Nat.cast_nonneg m
    have hpq : (0 : ℚ) ≤ (p : ℚ) := Nat.cast_nonneg p
    have hscore : (0 : ℚ) ≤ (m : ℚ) * 5 + ((((p : ℤ) - (m : ℤ)) : ℤ) : ℚ) * 2 := by
      push_cast
      linarith
    have hx : (0 : ℚ) ≤ ((m : ℚ) * 5 + ((((p : ℤ) - (m : ℤ)) : ℤ) : ℚ) * 2)
        / (((normStrSet b).length : ℚ) * 5) :=
      div_nonneg hscore (le_of_lt h2)
    exact ⟨(minMulBounds _ 50 hx (by norm_num)).1, (minMulBounds _ 50 hx (by norm_num)).2⟩
  · exact ⟨le_refl 0, by norm_num⟩

lemma experience_bounds (entries : List String) (req : ℚ) (year : ℕ) :
    0 ≤ compute_experience_score entries req year
      ∧ compute_experience_score entries req year ≤ 30 := by
  unfold compute_experience_score
  have htot : 0 ≤ entries.foldl (fun acc e => acc + entryYears year e) 0 := by
    rw [foldl_add_eq_sum, zero_add]
    refine List.sum_nonneg ?_
    intro x hx
    obtain ⟨e, _, he⟩ := List.mem_map.mp hx
    exact he ▸ entryYears_nonneg year e
  dsimp only
  split_ifs with h1 h2 h3
  · exact ⟨by norm_num, by norm_num⟩
  · exact ⟨le_refl 0, by norm_num⟩
  · have hreq : 0 < req := lt_of_not_ge h1
    have hx : 0 ≤ entries.foldl (fun acc e => acc + entryYears year e) 0 / req :=
      div_nonneg htot (le_of_lt hreq)
    exact ⟨(minMulBounds _ 30 hx (by norm_num)).1, (minMulBounds _ 30 hx (by norm_num)).2⟩
  · exact ⟨le_refl 0, by norm_num⟩

lemma education_bounds (a b : List String) :
    0 ≤ compute_education_similarity a b ∧ compute_education_similarity a b ≤ 15 := by
  unfold compute_education_similarity
  dsimp only
  split_ifs with h1 h2
  · exact ⟨le_refl 0, by norm_num⟩
  · have hx : (0 : ℚ) ≤ ((((normStrSet a).countP
        (fun r => (normStrSet b).any (fun j => eduCovers r j))) : ℚ) * 10)
        / (((normStrSet b).length : ℚ) * 10) := by positivity
    exact ⟨(minMulBounds _ 15 hx (by norm_num)).1, (minMulBounds _ 15 hx (by norm_num)).2⟩
  · exact ⟨le_refl 0, by norm_num⟩

lemma certification_bounds (a b : List String) :
    0 ≤ compute_certification_similarity a b ∧ compute_certification_similarity a b ≤ 5 := by
  unfold compute_certification_similarity
  dsimp only
  split_ifs with h1 h2
  · exact ⟨le_refl 0, by norm_num⟩
  · have hx : (0 : ℚ) ≤ ((((normStrSet a).countP
        (fun r => (normStrSet b).any (fun j => certMatchesEntry r j))) : ℚ) * 5)
        / (((normStrSet b).length : ℚ) * 5) := by positivity
    exact ⟨(minMulBounds _ 5 hx (by norm_num)).1, (minMulBounds _ 5 hx (by norm_num)).2⟩
  · exact ⟨le_refl 0, by norm_num⟩

lemma atsKeyword_bounds (resume : PyDict) (job : JobData) :
    0 ≤ atsKeywordComponent resume job ∧ atsKeywordComponent resume job ≤ 10 := by
  unfold atsKeywordComponent
  dsimp only
  split_ifs with h1
  · exact ⟨le_refl 0, by norm_num⟩
  · have hx : (0 : ℚ) ≤ (((tokensOf (jobTextOf job)).countP
        (fun t => (tokensOf (resumeTextOf resume)).contains t)) : ℚ)
        / (((tokensOf (jobTextOf job)).length : ℚ)) := by positivity
    exact ⟨(minMulBounds _ 10 hx (by norm_num)).1, (minMulBounds _ 10 hx (by norm_num)).2⟩

lemma atsSection_bounds (resume : PyDict) :
    0 ≤ atsSectionBonus resume ∧ atsSectionBonus resume ≤ 8 := by
  unfold atsSectionBonus
  split_ifs <;> norm_num

lemma atsLength_bounds (resume : PyDict) :
    0 ≤ atsLengthBonus resume ∧ atsLengthBonus resume ≤ 4 := by
  unfold atsLengthBonus
  constructor
  · exact le_min (by positivity) (by norm_num)
  · exact min_le_right _ _

lemma ats_bounds (resume : PyDict) (job : JobData) :
    0 ≤ compute_ats_score resume job ∧ compute_ats_score resume job ≤ 20 := by
  unfold compute_ats_score
  constructor
  · refine le_min ?_ (by norm_num)
    unfold atsRaw
    have h1 := atsKeyword_bounds resume job
    have h2 := atsSection_bounds resume
    have h3 := atsLength_bounds resume
    linarith [h1.1, h2.1, h3.1]
  · exact min_le_right _ _

lemma totalExact_bounds (job : JobData) (year : ℕ) (r : PyDict) :
    0 ≤ totalExact job year r ∧ totalExact job year r ≤ 120 := by
  unfold totalExact
  dsimp only
  have h1 := skill_bounds (getL (normalizeResume r) "skills") job.required_skills
  have h2 := experience_bounds (getL (normalizeResume r) "experience") job.required_experience year
  have h3 := education_bounds (getL (normalizeResume r) "education") job.required_education
  have h4 := certification_bounds (getL (normalizeResume r) "certifications")
    job.required_certifications
  have h5 := ats_bounds (normalizeResume r) job
  constructor
  · linarith [h1.1, h2.1, h3.1, h4.1, h5.1]
  · linarith [h1.2, h2.2, h3.2, h4.2, h5.2]

lemma round1_nonneg {q : ℚ} (h : 0 ≤ q) : 0 ≤ round1 q := by
  unfold round1
  dsimp only
  have hf : (0 : ℤ) ≤ ⌊q * 10⌋ := Int.floor_nonneg.mpr (by linarith)
  split_ifs with h1 h2 h3
  · positivity
  · have : (0 : ℚ) ≤ ((⌊q * 10⌋ + 1 : ℤ) : ℚ) := by exact_mod_cast by omega
    positivity
  · positivity
  · have : (0 : ℚ) ≤ ((⌊q * 10⌋ + 1 : ℤ) : ℚ) := by exact_mod_cast by omega
    positivity

lemma round1_le_120 {q : ℚ} (h : q ≤ 120) : round1 q ≤ 120 := by
  unfold round1
  dsimp only
  have hn : q * 10 ≤ 1200 := by linarith
  have hf : ⌊q * 10⌋ ≤ 1200 := by
    have := Int.floor_le_floor hn
    simpa using this
  have hfq : (⌊q * 10⌋ : ℚ) ≤ q * 10 := Int.floor_le _
  split_ifs with h1 h2 h3
  · rw [div_le_iff₀ (by norm_num : (0 : ℚ) < 10)]
    norm_num
    exact_mod_cast hf
  · rw [div_le_iff₀ (by norm_num : (0 : ℚ) < 10)]
    have hlt : (⌊q * 10⌋ : ℚ) < 1200 - 1/2 + 1/2 := by linarith
    have : ⌊q * 10⌋ + 1 ≤ 1200 := by
      have h1200 : (⌊q * 10⌋ : ℚ) < 1200 := by linarith
      have : ⌊q * 10⌋ < 1200 := by exact_mod_cast h1200
      omega
    calc ((⌊q * 10⌋ + 1 : ℤ) : ℚ) ≤ ((1200 : ℤ) : ℚ) := by exact_mod_cast this
      _ = 120 * 10 := by norm_num
  · rw [div_le_iff₀ (by norm_num : (0 : ℚ) < 10)]
    norm_num
    exact_mod_cast hf
  · rw [div_le_iff₀ (by norm_num : (0 : ℚ) < 10)]
    have heq : q * 10 - ⌊q * 10⌋ = 1/2 := le_antisymm (not_lt.mp h2) (not_lt.mp h1)
    have h1200 : (⌊q * 10⌋ : ℚ) ≤ 1200 - 1/2 := by linarith
    have : ⌊q * 10⌋ + 1 ≤ 1200 := by
      have hlt : (⌊q * 10⌋ : ℚ) < 1200 := by linarith
      have : ⌊q * 10⌋ < 1200 := by exact_mod_cast hlt
      omega
    calc ((⌊q * 10⌋ + 1 : ℤ) : ℚ) ≤ ((1200 : ℤ) : ℚ) := by exact_mod_cast this
      _ = 120 * 10 := by norm_num

lemma map_toScored_addRanksFrom : ∀ (n : ℕ) (l : List ScoredCandidate),
    (addRanksFrom n l).map toScored = l := by
  intro n l
  induction l generalizing n with
  | nil => rfl
  | cons x xs ih => simp [addRanksFrom, toScored, ih]

lemma mem_addRanksFrom {c : RankedCandidate} {n : ℕ} {l : List ScoredCandidate}
    (h : c ∈ addRanksFrom n l) : toScored c ∈ l := by
  have := List.mem_map_of_mem toScored h
  rwa [map_toScored_addRanksFrom] at this

lemma map_rank_addRanksFrom : ∀ (n : ℕ) (l : List ScoredCandidate),
    (addRanksFrom n l).map (fun c => c.rank) = List.range' n l.length := by
  intro n l
  induction l generalizing n with
  | nil => rfl
  | cons x xs ih => simp [addRanksFrom, List.range'_succ, ih]

lemma filter_orderedInsert (q : ℚ) (c : ScoredCandidate) :
    ∀ l : List ScoredCandidate,
      (List.orderedInsert scoreGe c l).filter (fun d => d.score == q)
        = if c.score == q then c :: l.filter (fun d => d.score == q)
          else l.filter (fun d => d.score == q) := by
  intro l
  induction l with
  | nil => cases hcq : (c.score == q) <;> simp [List.orderedInsert, List.filter_cons, hcq]
  | cons b l ih =>
    rw [List.orderedInsert]
    by_cases hgb : scoreGe c b
    · rw [if_pos hgb]
      simp only [List.filter_cons]
    · rw [if_neg hgb, List.filter_cons, ih]
      have hb : c.score < b.score := lt_of_not_ge hgb
      by_cases hcq : c.score == q <;> by_cases hbq : b.score == q
      · exfalso
        rw [beq_iff_eq] at hcq hbq
        rw [hcq, hbq] at hb
        exact lt_irrefl q hb
      · simp [hcq, hbq, List.filter_cons]
      · simp [hcq, hbq, List.filter_cons]
      · simp [hcq, hbq, List.filter_cons]

lemma filter_insertionSort (q : ℚ) :
    ∀ l : List ScoredCandidate,
      (List.insertionSort scoreGe l).filter (fun d => d.score == q)
        = l.filter (fun d => d.score == q) := by
  intro l
  induction l with
  | nil => rfl
  | cons c l ih =>
    rw [List.insertionSort, filter_orderedInsert, ih, List.filter_cons]

lemma pairwise_addRanksFrom : ∀ (l : List ScoredCandidate), List.Pairwise scoreGe l →
    ∀ n, List.Pairwise (fun a b : RankedCandidate => b.score ≤ a.score) (addRanksFrom n l) := by
  intro l
  induction l with
  | nil => intro _ n; exact List.Pairwise.nil
  | cons c rest ih =>
    intro h n
    obtain ⟨h1, h2⟩ := List.pairwise_cons.mp h
    rw [addRanksFrom]
    refine List.Pairwise.cons ?_ (ih h2 (n + 1))
    intro b' hb'
    exact h1 (toScored b') (mem_addRanksFrom hb')

lemma splitSepsGo_ne_nil (p : Char → Bool) : ∀ (fuel : ℕ) (l : List Char),
    splitSepsGo p fuel l ≠ [] := by
  intro fuel l
  cases fuel with
  | zero => simp [splitSepsGo]
  | succ n =>
    rw [splitSepsGo]
    split <;> simp

lemma tokensOf_ne_nil (s : String) : tokensOf s ≠ [] := by
  unfold tokensOf splitSeps
  intro h
  rw [List.dedup_eq_nil] at h
  exact splitSepsGo_ne_nil isSepChar _ _ (List.map_eq_nil_iff.mp h)

lemma rank_pair_eq (job : JobData) (year : ℕ) {r1 r2 : PyDict}
    (h : (scoreResume job year r1).score = (scoreResume job year r2).score) :
    rank_candidates [r1, r2] job year
      = addRanksFrom 1 [scoreResume job year r1, scoreResume job year r2] := by
  have hge : scoreGe (scoreResume job year r1) (scoreResume job year r2) := le_of_eq h.symm
  unfold rank_candidates
  congr 1
  simp only [List.map_cons, List.map_nil, List.insertionSort, List.orderedInsert]
  rw [if_pos hge]

lemma claimNormSet_filter (l : List String) :
    claimNormSet (l.filter (fun s => !(s == ""))) = normStrSet l :=
  rfl

lemma dlookup_normalizeResume (r : PyDict) (k : String) :
    dlookup (normalizeResume r) k =
      if k = "skills" then some (dictGet r "skills" (PyVal.vList []))
      else if k = "experience" then some (dictGet r "experience" (PyVal.vList []))
      else if k = "education" then some (dictGet r "education" (PyVal.vList []))
      else if k = "certifications" then some (dictGet r "certifications" (PyVal.vList []))
      else none := by
  unfold dlookup normalizeResume
  by_cases h1 : k = "skills"
  · subst h1
    rw [List.find?_cons_of_pos _ (by simp)]
    simp
  · rw [List.find?_cons_of_neg _ (by simp only [beq_iff_eq]; exact Ne.symm h1)]
    by_cases h2 : k = "experience"
    · subst h2
      rw [List.find?_cons_of_pos _ (by simp)]
      simp
    · rw [List.find?_cons_of_neg _ (by simp only [beq_iff_eq]; exact Ne.symm h2)]
      by_cases h3 : k = "education"
      · subst h3
        rw [List.find?_cons_of_pos _ (by simp)]
        simp
      · rw [List.find?_cons_of_neg _ (by simp only [beq_iff_eq]; exact Ne.symm h3)]
        by_cases h4 : k = "certifications"
        · subst h4
          rw [List.find?_cons_of_pos _ (by simp)]
          simp
        · rw [List.find?_cons_of_neg _ (by simp only [beq_iff_eq]; exact Ne.symm h4)]
          simp [h1, h2, h3, h4]

lemma normStrSet_pos_of_not_isEmpty {b : List String} {n : ℕ}
    (hne : (normStrSet b).isEmpty = false) (hn : (normStrSet b).length = n) :
    (0 : ℚ) < (n : ℚ) := by
  have hn0 : 0 < n := by
    rw [← hn]
    exact List.length_pos.mpr (fun he => by simp [he] at hne)
  exact_mod_cast hn0

lemma compute_skill_similarity_eval (a b : List String) (m p n : ℕ)
    (hne : (normStrSet b).isEmpty = false)
    (hm : (normStrSet a).countP (fun r => (normStrSet b).contains r) = m)
    (hp : ((normStrSet a).map
        (fun r => (normStrSet b).countP (fun j => pyIn r j || pyIn j r))).sum = p)
    (hn : (normStrSet b).length = n) :
    compute_skill_similarity a b
      = min (((m : ℚ) * 5 + ((((p : ℤ) - (m : ℤ)) : ℤ) : ℚ) * 2) / ((n : ℚ) * 5)) 1 * 50 := by
  unfold compute_skill_similarity
  dsimp only
  rw [if_neg (by simp [hne]), hm, hp, hn]
  have := normStrSet_pos_of_not_isEmpty hne hn
  rw [if_pos (by linarith : (0 : ℚ) < (n : ℚ) * 5)]

lemma skill_similarity_claim_eval (a b : List String) (m p n : ℕ)
    (hne : (claimNormSet b).isEmpty = false)
    (hm : (claimNormSet a).countP (fun r => (claimNormSet b).contains r) = m)
    (hp : ((claimNormSet a).map
        (fun r => (claimNormSet b).countP (fun j => pyIn r j || pyIn j r))).sum = p)
    (hn : (claimNormSet b).length = n) :
    skill_similarity_claim a b
      = min (((m : ℚ) * 5 + ((((p : ℤ) - (m : ℤ)) : ℤ) : ℚ) * 2) / ((n : ℚ) * 5)) 1 * 50 := by
  unfold skill_similarity_claim
  dsimp only
  rw [if_neg (by simp [hne]), hm, hp, hn]

lemma compute_skill_similarity_empty (a b : List String)
    (hb : (normStrSet b).isEmpty = true) :
    compute_skill_similarity a b = 0 := by
  unfold compute_skill_similarity
  dsimp only
  rw [if_pos hb]

lemma compute_education_similarity_eval (a b : List String) (m n : ℕ)
    (hne : (normStrSet b).isEmpty = false)
    (hm : (normStrSet a).countP (fun r => (normStrSet b).any (fun j => eduCovers r j)) = m)
    (hn : (normStrSet b).length = n) :
    compute_education_similarity a b = min ((m : ℚ) * 10 / ((n : ℚ) * 10)) 1 * 15 := by
  unfold compute_education_similarity
  dsimp only
  rw [if_neg (by simp [hne]), hm, hn]
  have := normStrSet_pos_of_not_isEmpty hne hn
  rw [if_pos (by linarith : (0 : ℚ) < (n : ℚ) * 10)]

lemma education_similarity_claim_eval (a b : List String) (m n : ℕ)
    (hne : (normStrSet b).isEmpty = false)
    (hm : (normStrSet b).countP (fun j => (normStrSet a).any (fun r => eduCovers r j)) = m)
    (hn : (normStrSet b).length = n) :
    education_similarity_claim a b = min ((m : ℚ) * 10 / ((n : ℚ) * 10)) 1 * 15 := by
  unfold education_similarity_claim
  dsimp only
  rw [if_neg (by simp [hne]), hm, hn]

lemma compute_education_similarity_empty (a b : List String)
    (hb : (normStrSet b).isEmpty = true) :
    compute_education_similarity a b = 0 := by
  unfold compute_education_similarity
  dsimp only
  rw [if_pos hb]

lemma compute_certification_similarity_eval (a b : List String) (m n : ℕ)
    (hne : (normStrSet b).isEmpty = false)
    (hm : (normStrSet a).countP
        (fun r => (normStrSet b).any (fun j => certMatchesEntry r j)) = m)
    (hn : (normStrSet b).length = n) :
    compute_certification_similarity a b = min ((m : ℚ) * 5 / ((n : ℚ) * 5)) 1 * 5 := by
  unfold compute_certification_similarity
  dsimp only
  rw [if_neg (by simp [hne]), hm, hn]
  have := normStrSet_pos_of_not_isEmpty hne hn
  rw [if_pos (by linarith : (0 : ℚ) < (n : ℚ) * 5)]

lemma certification_similarity_claim_eval (a b : List String) (m n : ℕ)
    (hne : (normStrSet b).isEmpty = false)
    (hm : (normStrSet b).countP
        (fun j => (normStrSet a).any (fun r => certMatchesEntry r j)) = m)
    (hn : (normStrSet b).length = n) :
    certification_similarity_claim a b = min ((m : ℚ) * 5 / ((n : ℚ) * 5)) 1 * 5 := by
  unfold certification_similarity_claim
  dsimp only
  rw [if_neg (by simp [hne]), hm, hn]

lemma compute_certification_similarity_empty (a b : List String)
    (hb : (normStrSet b).isEmpty = true) :
    compute_certification_similarity a b = 0 := by
  unfold compute_certification_similarity
  dsimp only
  rw [if_pos hb]

lemma compute_experience_score_eval (entries : List String) (req : ℚ) (year : ℕ) (t : ℚ)
    (ht : (entries.map (entryYears year)).sum = t) :
    compute_experience_score entries req year
      = if req ≤ 0 then (if 0 < t then 30 else 0)
        else if 0 < t then min (t / req) 1 * 30 else 0 := by
  unfold compute_experience_score
  dsimp only
  rw [foldl_add_eq_sum, zero_add, ht]

lemma atsKeywordComponent_eval (resume : PyDict) (job : JobData) (k n : ℕ)
    (hne : (tokensOf (jobTextOf job)).isEmpty = false)
    (hk : (tokensOf (jobTextOf job)).countP
        (fun t => (tokensOf (resumeTextOf resume)).contains t) = k)
    (hn : (tokensOf (jobTextOf job)).length = n) :
    atsKeywordComponent resume job = min ((k : ℚ) / (n : ℚ)) 1 * 10 := by
  unfold atsKeywordComponent
  dsimp only
  rw [if_neg (by simp [hne]), hk, hn]

lemma atsSectionBonus_eval (resume : PyDict) (b1 b2 b3 b4 : Bool)
    (h1 : (getL resume "skills").isEmpty = b1)
    (h2 : (getL resume "experience").isEmpty = b2)
    (h3 : (getL resume "education").isEmpty = b3)
    (h4 : (getL resume "certifications").isEmpty = b4) :
    atsSectionBonus resume
      = (if b1 then 0 else 2) + (if b2 then 0 else 2)
        + (if b3 then 0 else 2) + (if b4 then 0 else 2) := by
  unfold atsSectionBonus
  rw [h1, h2, h3, h4]

lemma compute_ats_score_eval (resume : PyDict) (job : JobData) (k n : ℕ) (s : ℚ) (len : ℕ)
    (hne : (tokensOf (jobTextOf job)).isEmpty = false)
    (hk : (tokensOf (jobTextOf job)).countP
        (fun t => (tokensOf (resumeTextOf resume)).contains t) = k)
    (hn : (tokensOf (jobTextOf job)).length = n)
    (hs : atsSectionBonus resume = s)
    (hlen : (resumeTextOf resume).length = len) :
    compute_ats_score resume job
      = min (min ((k : ℚ) / (n : ℚ)) 1 * 10 + s + min ((len : ℚ) / 200) 4) 20 := by
  unfold compute_ats_score atsRaw atsLengthBonus
  rw [atsKeywordComponent_eval resume job k n hne hk hn, hs, hlen]

lemma totalExact_eval (job : JobData) (year : ℕ) (r : PyDict) (s1 s2 s3 s4 s5 : ℚ)
    (h1 : compute_skill_similarity (getL (normalizeResume r) "skills")
        job.required_skills = s1)
    (h2 : compute_experience_score (getL (normalizeResume r) "experience")
        job.required_experience year = s2)
    (h3 : compute_education_similarity (getL (normalizeResume r) "education")
        job.required_education = s3)
    (h4 : compute_certification_similarity (getL (normalizeResume r) "certifications")
        job.required_certifications = s4)
    (h5 : compute_ats_score (normalizeResume r) job = s5) :
    totalExact job year r = s1 + s2 + s3 + s4 + s5 := by
  unfold totalExact
  dsimp only
  rw [h1, h2, h3, h4, h5]

lemma round1_eq_of_lt (q : ℚ) (f : ℤ) (hf : ⌊q * 10⌋ = f) (h : q * 10 - (f : ℚ) < 1/2) :
    round1 q = (f : ℚ) / 10 := by
  unfold round1
  dsimp only
  rw [hf, if_pos h]

lemma round1_eq_of_gt (q : ℚ) (f : ℤ) (hf : ⌊q * 10⌋ = f) (h : 1/2 < q * 10 - (f : ℚ)) :
    round1 q = ((f + 1 : ℤ) : ℚ) / 10 := by
  unfold round1
  dsimp only
  rw [hf, if_neg (by linarith), if_pos h]

lemma rank_single (r : PyDict) (job : JobData) (year : ℕ) :
    rank_candidates [r] job year
      = [{ score := (scoreResume job year r).score,
           ats_score := (scoreResume job year r).ats_score,
           resume := (scoreResume job year r).resume, rank := 1 }] :=
  rfl

lemma rank_pair_swap (job : JobData) (year : ℕ) {r1 r2 : PyDict}
    (h : ¬ scoreGe (scoreResume job year r1) (scoreResume job year r2)) :
    rank_candidates [r1, r2] job year
      = addRanksFrom 1 [scoreResume job year r2, scoreResume job year r1] := by
  unfold rank_candidates
  congr 1
  simp only [List.map_cons, List.map_nil, List.insertionSort, List.orderedInsert]
  rw [if_neg h]

lemma skill_cx : compute_skill_similarity (getL (normalizeResume cxResume) "skills")
    cxJob.required_skills = 50 := by
  rw [compute_skill_similarity_eval (getL (normalizeResume cxResume) "skills")
    cxJob.required_skills 1 1 1 rfl rfl rfl rfl]
  norm_num

lemma entry_two_years : entryYears 2024 "2 years" = 2 := by
  have hs : searchYears ("2 years").data = some (ratOfNum ['2'] []) := rfl
  have hr : ratOfNum ['2'] [] = 2 := by
    unfold ratOfNum
    norm_num [show natOfDigits ['2'] = 2 from rfl, show natOfDigits ([] : List Char) = 0 from rfl]
  rw [entryYears, hs]
  exact hr

lemma exp_cx : compute_experience_score (getL (normalizeResume cxResume) "experience")
    cxJob.required_experience 2024 = 30 := by
  have ht : ((getL (normalizeResume cxResume) "experience").map (entryYears 2024)).sum = 2 := by
    rw [show (getL (normalizeResume cxResume) "experience") = ["2 years"] from rfl]
    simp [entry_two_years]
  rw [compute_experience_score_eval _ _ 2024 2 ht]
  rw [show cxJob.required_experience = 1 from rfl]
  norm_num

lemma edu_cx : compute_education_similarity (getL (normalizeResume cxResume) "education")
    cxJob.required_education = 15 := by
  rw [compute_education_similarity_eval (getL (normalizeResume cxResume) "education")
    cxJob.required_education 1 1 rfl rfl rfl]
  norm_num

lemma cert_cx : compute_certification_similarity (getL (normalizeResume cxResume) "certifications")
    cxJob.required_certifications = 5 := by
  rw [compute_certification_similarity_eval (getL (normalizeResume cxResume) "certifications")
    cxJob.required_certifications 1 1 rfl rfl rfl]
  norm_num

lemma ats_cx : compute_ats_score (normalizeResume cxResume) cxJob = 454/25 := by
  have hs : atsSectionBonus (normalizeResume cxResume) = 8 := by
    rw [atsSectionBonus_eval (normalizeResume cxResume) false false false false rfl rfl rfl rfl]
    norm_num
  rw [compute_ats_score_eval (normalizeResume cxResume) cxJob 3 3 8 32 rfl rfl rfl hs rfl]
  norm_num

lemma total_cx : totalExact cxJob 2024 cxResume = 2954/25 := by
  rw [totalExact_eval cxJob 2024 cxResume _ _ _ _ _ skill_cx exp_cx edu_cx cert_cx ats_cx]
  norm_num

lemma round_cx : round1 (2954/25 : ℚ) = 591/5 := by
  have hf : ⌊(2954/25 : ℚ) * 10⌋ = 1181 := by norm_num [Int.floor_eq_iff]
  rw [round1_eq_of_gt _ 1181 hf (by norm_num)]
  norm_num

/-- Claim C1 counterexample: the composite score is NOT bounded by 100.  A
resume meeting every requirement of `cxJob` has exact composite sub-score
sum `118.16` and reported (rounded) score `118.2`, both above 100. -/
theorem claim_C1_counterexample :
    totalExact cxJob 2024 cxResume = 2954/25
    ∧ (100 : ℚ) < 2954/25
    ∧ (rank_candidates [cxResume] cxJob 2024).map (fun c => c.score) = [591/5]
    ∧ (100 : ℚ) < 591/5 := by
  refine ⟨total_cx, by norm_num, ?_, by norm_num⟩
  rw [rank_single]
  show [round1 (totalExact cxJob 2024 cxResume)] = [591/5]
  rw [total_cx, round_cx]

/-- Claim C1 (amended): for every list of resumes, every job requirement
and every current year, each candidate returned by `rank_candidates` has a
composite score (the rounded sum of the skill, experience, education,
certification and ATS sub-scores) lying in the closed interval [0, 120];
the claim's interval [0, 100] is too tight, as `claim_C1_counterexample`
shows, and 120 = 50+30+15+5+20 is the correct cap. -/
theorem claim_C1_amended (resumes : List PyDict) (job : JobData) (year : ℕ) :
    ∀ c ∈ rank_candidates resumes job year, 0 ≤ c.score ∧ c.score ≤ 120 := by
  intro c hc
  rw [rank_candidates] at hc
  have h2 : toScored c ∈ resumes.map (scoreResume job year) :=
    (List.perm_insertionSort scoreGe _).mem_iff.mp (mem_addRanksFrom hc)
  obtain ⟨r, _, he⟩ := List.mem_map.mp h2
  have hs : c.score = round1 (totalExact job year r) :=
    (congrArg ScoredCandidate.score he).symm
  rw [hs]
  exact ⟨round1_nonneg (totalExact_bounds job year r).1,
    round1_le_120 (totalExact_bounds job year r).2⟩

/-- Claim C1 witness: the amended bound instantiated at the concrete batch
of `claim_C1_counterexample`. -/
theorem claim_C1_witness :
    0 ≤ ((rank_candidates [cxResume] cxJob 2024).headI).score
    ∧ ((rank_candidates [cxResume] cxJob 2024).headI).score ≤ 120 :=
  claim_C1_amended [cxResume] cxJob 2024 _
    (by rw [rank_single]; exact List.mem_singleton.mpr rfl)

/-- Claim C2 counterexample: the education `matches` counter runs over
RESUME entries, not over requirement entries.  Two bachelor-level resume
entries against requirements `{bachelor, phd}` score `15` in the code,
while the claim's per-requirement counting predicts `7.5`. -/
theorem claim_C2_counterexample :
    compute_education_similarity ["bachelor x", "bachelor y"] ["bachelor", "phd"] = 15
    ∧ education_similarity_claim ["bachelor x", "bachelor y"] ["bachelor", "phd"] = 15/2 := by
  constructor
  · rw [compute_education_similarity_eval ["bachelor x", "bachelor y"] ["bachelor", "phd"] 2 2 rfl rfl rfl]
    norm_num
  · rw [education_similarity_claim_eval ["bachelor x", "bachelor y"] ["bachelor", "phd"] 1 2 rfl rfl rfl]
    norm_num

/-- Claim C2 (amended): the education score equals
`min(matches*10 / (|required'|*10), 1) * 15`, where `required'` is the
normalized required set and `matches` counts distinct RESUME entries (not
requirement entries), each at most once, an entry counting when its derived
degree level reaches the level of some requirement whose level is positive;
the score is `0` when no education is required. -/
theorem claim_C2_amended (resume_edu required_edu : List String) :
    compute_education_similarity resume_edu required_edu
      = education_similarity_amended resume_edu required_edu := by
  unfold compute_education_similarity education_similarity_amended
  dsimp only
  by_cases h : (normStrSet required_edu).isEmpty
  · rw [if_pos h, if_pos h]
  · rw [if_neg h, if_neg h]
    have hne : normStrSet required_edu ≠ [] := fun he => h (by simp [he])
    have hl : 0 < (normStrSet required_edu).length := List.length_pos.mpr hne
    have hq : (0 : ℚ) < ((normStrSet required_edu).length : ℚ) := by exact_mod_cast hl
    rw [if_pos (by linarith : (0 : ℚ) < ((normStrSet required_edu).length : ℚ) * 10)]

/-- Claim C3 counterexample: the certification `matches` counter runs over
RESUME entries, not over required certifications.  A single generic
`"certified"` resume entry against two required certifications scores
`2.5` in the code, while the claim's per-requirement counting (the generic
keyword matching every requirement) predicts `5`. -/
theorem claim_C3_counterexample :
    compute_certification_similarity ["certified"] ["x", "y"] = 5/2
    ∧ certification_similarity_claim ["certified"] ["x", "y"] = 5 := by
  constructor
  · rw [compute_certification_similarity_eval ["certified"] ["x", "y"] 1 2 rfl rfl rfl]
    norm_num
  · rw [certification_similarity_claim_eval ["certified"] ["x", "y"] 2 2 rfl rfl rfl]
    norm_num

/-- Claim C3 (amended): the certification score equals
`min(matches*5 / (|required'|*5), 1) * 5`, where `required'` is the
normalized required set and `matches` counts RESUME certification entries
(not required certifications), each at most once, an entry counting when it
is in case-insensitive containment (either direction) with some required
certification or contains one of the generic keywords; the score is `0`
when no certifications are required. -/
theorem claim_C3_amended (resume_certs required_certs : List String) :
    compute_certification_similarity resume_certs required_certs
      = certification_similarity_amended resume_certs required_certs := by
  unfold compute_certification_similarity certification_similarity_amended
  dsimp only
  by_cases h : (normStrSet required_certs).isEmpty
  · rw [if_pos h, if_pos h]
  · rw [if_neg h, if_neg h]
    have hne : normStrSet required_certs ≠ [] := fun he => h (by simp [he])
    have hl : 0 < (normStrSet required_certs).length := List.length_pos.mpr hne
    have hq : (0 : ℚ) < ((normStrSet required_certs).length : ℚ) := by exact_mod_cast hl
    rw [if_pos (by linarith : (0 : ℚ) < ((normStrSet required_certs).length : ℚ) * 5)]

/-- Claim C5 counterexample: the code discards raw empty-string entries
before normalizing (Python's `if skill` truthiness filter), which the
claim's "lower-case, trim, deduplicate" normalization does not.  On resume
`[""]` and required `[""]` the code scores `0` while the claim's formula
scores `50`. -/
theorem claim_C5_counterexample :
    compute_skill_similarity [""] [""] = 0
    ∧ skill_similarity_claim [""] [""] = 50 := by
  constructor
  · exact compute_skill_similarity_empty _ _ rfl
  · rw [skill_similarity_claim_eval [""] [""] 1 1 1 rfl rfl rfl rfl]
    norm_num

/-- Claim C5 (amended): after first discarding raw entries equal to the
empty string and then lower-casing, trimming and deduplicating both sides,
the skill score equals `min((5*exact + 2*partial)/(5*|required|), 1) * 50`
when the required set is non-empty and `0` when it is empty, `partial`
being the containment-pair count minus `exact`; in particular the
`["python", "machine learning"]` vs `["python", "data science"]` scenario
scores exactly `25`. -/
theorem claim_C5_amended (resume_skills required_skills : List String) :
    compute_skill_similarity resume_skills required_skills
      = skill_similarity_amended resume_skills required_skills
    ∧ compute_skill_similarity ["python", "machine learning"] ["python", "data science"] = 25 := by
  constructor
  · unfold compute_skill_similarity skill_similarity_amended
    dsimp only
    rw [claimNormSet_filter, claimNormSet_filter]
    by_cases h : (normStrSet required_skills).isEmpty
    · rw [if_pos h, if_pos h]
    · rw [if_neg h, if_neg h]
      have hne : normStrSet required_skills ≠ [] := fun he => h (by simp [he])
      have hl : 0 < (normStrSet required_skills).length := List.length_pos.mpr hne
      have hq : (0 : ℚ) < ((normStrSet required_skills).length : ℚ) := by exact_mod_cast hl
      rw [if_pos (by linarith : (0 : ℚ) < ((normStrSet required_skills).length : ℚ) * 5)]
  · rw [compute_skill_similarity_eval ["python", "machine learning"] ["python", "data science"] 1 1 2 rfl rfl rfl rfl]
    norm_num

/-- Claim C4 counterexample: the keyword-coverage component is NOT `0` when
the job side is empty.  `re.split` of the empty job text yields the token
set `{""}`, which is non-empty, so the code's emptiness guard never fires;
against an all-empty resume (whose token set is also `{""}`) the component
is `10`, and the whole ATS score is `10`. -/
theorem claim_C4_counterexample :
    atsKeywordComponent [] cxJobEmpty = 10 ∧ compute_ats_score [] cxJobEmpty = 10 := by
  constructor
  · rw [atsKeywordComponent_eval [] cxJobEmpty 1 1 rfl rfl rfl]
    norm_num
  · have hs : atsSectionBonus ([] : PyDict) = 0 := by
      rw [atsSectionBonus_eval [] true true true true rfl rfl rfl rfl]
      norm_num
    rw [compute_ats_score_eval [] cxJobEmpty 1 1 0 0 rfl rfl rfl hs rfl]
    norm_num

/-- Claim C4 (amended): the keyword-coverage component always equals
`min(|resume_tokens ∩ job_tokens| / |job_tokens|, 1) * 10` over the
whitespace/comma/semicolon tokenization of the lower-cased concatenated
fields (the job token set is never empty, since splitting the empty string
yields the empty token); when the job side is empty the component is `10`
if the resume token set contains the empty token (for instance when the
resume is empty too) and `0` otherwise. -/
theorem claim_C4_amended (resume : PyDict) (job : JobData) :
    atsKeywordComponent resume job
      = min (((tokensOf (jobTextOf job)).countP
            (fun t => (tokensOf (resumeTextOf resume)).contains t) : ℚ)
          / ((tokensOf (jobTextOf job)).length : ℚ)) 1 * 10
    ∧ (job.required_skills = [] → job.required_education = [] →
        job.required_certifications = [] →
        atsKeywordComponent resume job
          = if (tokensOf (resumeTextOf resume)).contains "" = true then 10 else 0) := by
  constructor
  · unfold atsKeywordComponent
    dsimp only
    rw [if_neg (by simp [List.isEmpty_iff, tokensOf_ne_nil])]
  · intro h1 h2 h3
    obtain ⟨s, ex, ed, ce⟩ := job
    dsimp only at h1 h2 h3
    subst h1
    subst h2
    subst h3
    have hjt : tokensOf (jobTextOf ⟨[], ex, [], []⟩) = [""] := rfl
    unfold atsKeywordComponent
    dsimp only
    rw [hjt]
    by_cases hc : (tokensOf (resumeTextOf resume)).contains "" = true
    · rw [if_pos hc]
      have h1 : List.countP (fun t => (tokensOf (resumeTextOf resume)).contains t) [""] = 1 := by
        simp only [List.countP_cons, List.countP_nil, hc]
        decide
      rw [h1]
      norm_num
    · rw [if_neg hc]
      simp only [Bool.not_eq_true] at hc
      have h1 : List.countP (fun t => (tokensOf (resumeTextOf resume)).contains t) [""] = 0 := by
        simp only [List.countP_cons, List.countP_nil, hc]
        decide
      rw [h1]
      norm_num

/-- Claim C4 witness: the amended statement instantiated at the all-empty
resume and all-empty job, where the component evaluates to `10`. -/
theorem claim_C4_witness :
    atsKeywordComponent [] cxJobEmpty
      = if (tokensOf (resumeTextOf ([] : PyDict))).contains "" = true then 10 else 0 :=
  (claim_C4_amended [] cxJobEmpty).2 rfl rfl rfl

/-- Claim C6: `compute_experience_score` accumulates `total_years` per
entry, the duration regex first and the date ranges only when it fails,
each range contributing `max(end - start, 0)` with `present`/`current`
resolving to the current year; the score is then binary (30/0) when
`required_experience ≤ 0` and `min(total/required, 1) * 30` (or 0 with no
parsed years) otherwise. -/
theorem claim_C6_experience (entries : List String) (req : ℚ) (year : ℕ) :
    compute_experience_score entries req year
      = (if req ≤ 0 then (if 0 < (entries.map (entryYears year)).sum then 30 else 0)
         else if 0 < (entries.map (entryYears year)).sum then
           min ((entries.map (entryYears year)).sum / req) 1 * 30
         else 0)
    ∧ (∀ (e : String) (q : ℚ), searchYears e.data = some q → entryYears year e = q)
    ∧ (∀ e : String, searchYears e.data = none → entryYears year e = dateRangeYears year e) := by
  refine ⟨?_, ?_, ?_⟩
  · unfold compute_experience_score
    dsimp only
    rw [foldl_add_eq_sum, zero_add]
  · intro e q h
    rw [entryYears, h]
  · intro e h
    rw [entryYears, h]

/-- Claim C6 witness: the per-entry clauses instantiated on a duration
entry (`"5 years"` contributes 5 via the regex) and a date-range entry
(`"2019 - 2021"`, where the regex fails and the ranges decide). -/
theorem claim_C6_witness :
    entryYears 2024 "5 years" = 5
    ∧ entryYears 2024 "2019 - 2021" = dateRangeYears 2024 "2019 - 2021" := by
  constructor
  · have hs : searchYears ("5 years").data = some 5 := by
      rw [show searchYears ("5 years").data = some (ratOfNum ['5'] []) from rfl]
      norm_num [ratOfNum, show natOfDigits ['5'] = 5 from rfl,
        show natOfDigits ([] : List Char) = 0 from rfl]
    exact (claim_C6_experience [] 0 2024).2.1 "5 years" 5 hs
  · exact (claim_C6_experience [] 0 2024).2.2 "2019 - 2021" rfl

/-- Claim C7: `rank_candidates` returns the scored candidates sorted by
score descending; the sort is stable (equal-scored candidates keep their
input order, stated as filter-invariance at every score value); the ranks
form exactly the contiguous sequence 1..N; and for a two-candidate batch
with equal scores the output equals the input order with ranks 1 and 2. -/
theorem claim_C7_rank_order (resumes : List PyDict) (job : JobData) (year : ℕ) :
    List.Sorted (fun a b : RankedCandidate => b.score ≤ a.score)
      (rank_candidates resumes job year)
    ∧ (∀ q : ℚ, ((rank_candidates resumes job year).map toScored).filter
          (fun c => c.score == q)
        = (resumes.map (scoreResume job year)).filter (fun c => c.score == q))
    ∧ (rank_candidates resumes job year).map (fun c => c.rank)
        = List.range' 1 resumes.length
    ∧ (∀ r1 r2 : PyDict,
        (scoreResume job year r1).score = (scoreResume job year r2).score →
        rank_candidates [r1, r2] job year
          = addRanksFrom 1 [scoreResume job year r1, scoreResume job year r2]) := by
  refine ⟨?_, ?_, ?_, ?_⟩
  · exact pairwise_addRanksFrom _ (List.sorted_insertionSort scoreGe _) 1
  · intro q
    rw [rank_candidates, map_toScored_addRanksFrom]
    exact filter_insertionSort q _
  · rw [rank_candidates, map_rank_addRanksFrom]
    congr 1
    rw [(List.perm_insertionSort scoreGe _).length_eq, List.length_map]
  · intro r1 r2 h
    exact rank_pair_eq job year h

lemma totalExact_congr (job : JobData) (year : ℕ) {r1 r2 : PyDict}
    (h : normalizeResume r1 = normalizeResume r2) :
    totalExact job year r1 = totalExact job year r2 := by
  unfold totalExact
  rw [h]

lemma scoreResume_congr (job : JobData) (year : ℕ) {r1 r2 : PyDict}
    (h : normalizeResume r1 = normalizeResume r2) :
    scoreResume job year r1 = scoreResume job year r2 := by
  unfold scoreResume totalExact
  rw [h]

/-- Claim C7 witness: two distinct resume dictionaries with equal scores
(the empty dictionary and one with an explicit empty skill list) are
returned in input order with ranks 1 and 2. -/
theorem claim_C7_witness :
    rank_candidates [pairResumeA, pairResumeB] tieJob 2024
      = addRanksFrom 1 [scoreResume tieJob 2024 pairResumeA,
          scoreResume tieJob 2024 pairResumeB] :=
  (claim_C7_rank_order [] tieJob 2024).2.2.2 pairResumeA pairResumeB
    (congrArg ScoredCandidate.score (scoreResume_congr tieJob 2024 rfl))

set_option maxRecDepth 100000 in
lemma ats22 : atsRaw ats22Resume ats22Job = 22 := by
  unfold atsRaw
  rw [atsKeywordComponent_eval ats22Resume ats22Job 1 1 rfl rfl rfl]
  rw [atsSectionBonus_eval ats22Resume false false false false rfl rfl rfl rfl]
  unfold atsLengthBonus
  rw [show (resumeTextOf ats22Resume).length = 808 from rfl]
  norm_num

/-- Claim C8: every sub-score lies within its cap for all inputs: skill in
[0,50], experience in [0,30], education in [0,15], certification in [0,5]
and ATS in [0,20]; the ATS bound relies on the final cap, since the three
ATS components can sum to 22 before capping (a concrete instance attains
exactly 22). -/
theorem claim_C8_bounds (a b exp_list : List String) (req : ℚ) (year : ℕ)
    (edu reqEdu certs reqCerts : List String) (resume : PyDict) (job : JobData) :
    (0 ≤ compute_skill_similarity a b ∧ compute_skill_similarity a b ≤ 50)
    ∧ (0 ≤ compute_experience_score exp_list req year
        ∧ compute_experience_score exp_list req year ≤ 30)
    ∧ (0 ≤ compute_education_similarity edu reqEdu
        ∧ compute_education_similarity edu reqEdu ≤ 15)
    ∧ (0 ≤ compute_certification_similarity certs reqCerts
        ∧ compute_certification_similarity certs reqCerts ≤ 5)
    ∧ (0 ≤ compute_ats_score resume job ∧ compute_ats_score resume job ≤ 20)
    ∧ atsRaw ats22Resume ats22Job = 22 :=
  ⟨skill_bounds a b, experience_bounds exp_list req year, education_bounds edu reqEdu,
   certification_bounds certs reqCerts, ats_bounds resume job, ats22⟩

lemma total_tieA : totalExact tieJob 2024 tieResumeA = 12401/200 := by
  have h1 : compute_skill_similarity (getL (normalizeResume tieResumeA) "skills")
      tieJob.required_skills = 50 := by
    rw [compute_skill_similarity_eval (getL (normalizeResume tieResumeA) "skills")
      tieJob.required_skills 1 1 1 rfl rfl rfl rfl]
    norm_num
  have h2 : compute_experience_score (getL (normalizeResume tieResumeA) "experience")
      tieJob.required_experience 2024 = 0 := by
    rw [compute_experience_score_eval (getL (normalizeResume tieResumeA) "experience")
      tieJob.required_experience 2024 0 rfl]
    rw [show tieJob.required_experience = 0 from rfl]
    norm_num
  have h3 : compute_education_similarity (getL (normalizeResume tieResumeA) "education")
      tieJob.required_education = 0 :=
    compute_education_similarity_empty _ _ rfl
  have h4 : compute_certification_similarity (getL (normalizeResume tieResumeA) "certifications")
      tieJob.required_certifications = 0 :=
    compute_certification_similarity_empty _ _ rfl
  have hs : atsSectionBonus (normalizeResume tieResumeA) = 2 := by
    rw [atsSectionBonus_eval (normalizeResume tieResumeA) false true true true rfl rfl rfl rfl]
    norm_num
  have h5 : compute_ats_score (normalizeResume tieResumeA) tieJob = 2401/200 := by
    rw [compute_ats_score_eval (normalizeResume tieResumeA) tieJob 1 1 2 1 rfl rfl rfl hs rfl]
    norm_num
  rw [totalExact_eval tieJob 2024 tieResumeA _ _ _ _ _ h1 h2 h3 h4 h5]
  norm_num

lemma total_tieB : totalExact tieJob 2024 tieResumeB = 3103/50 := by
  have h1 : compute_skill_similarity (getL (normalizeResume tieResumeB) "skills")
      tieJob.required_skills = 50 := by
    rw [compute_skill_similarity_eval (getL (normalizeResume tieResumeB) "skills")
      tieJob.required_skills 1 1 1 rfl rfl rfl rfl]
    norm_num
  have h2 : compute_experience_score (getL (normalizeResume tieResumeB) "experience")
      tieJob.required_experience 2024 = 0 := by
    rw [compute_experience_score_eval (getL (normalizeResume tieResumeB) "experience")
      tieJob.required_experience 2024 0 rfl]
    rw [show tieJob.required_experience = 0 from rfl]
    norm_num
  have h3 : compute_education_similarity (getL (normalizeResume tieResumeB) "education")
      tieJob.required_education = 0 :=
    compute_education_similarity_empty _ _ rfl
  have h4 : compute_certification_similarity (getL (normalizeResume tieResumeB) "certifications")
      tieJob.required_certifications = 0 :=
    compute_certification_similarity_empty _ _ rfl
  have hs : atsSectionBonus (normalizeResume tieResumeB) = 2 := by
    rw [atsSectionBonus_eval (normalizeResume tieResumeB) false true true true rfl rfl rfl rfl]
    norm_num
  have h5 : compute_ats_score (normalizeResume tieResumeB) tieJob = 603/50 := by
    rw [compute_ats_score_eval (normalizeResume tieResumeB) tieJob 1 1 2 12 rfl rfl rfl hs rfl]
    norm_num
  rw [totalExact_eval tieJob 2024 tieResumeB _ _ _ _ _ h1 h2 h3 h4 h5]
  norm_num

lemma round_tieA : round1 (12401/200 : ℚ) = 62 := by
  have hf : ⌊(12401/200 : ℚ) * 10⌋ = 620 := by norm_num [Int.floor_eq_iff]
  rw [round1_eq_of_lt _ 620 hf (by norm_num)]
  norm_num

lemma round_tieB : round1 (3103/50 : ℚ) = 621/10 := by
  have hf : ⌊(3103/50 : ℚ) * 10⌋ = 620 := by norm_num [Int.floor_eq_iff]
  rw [round1_eq_of_gt _ 620 hf (by norm_num)]
  norm_num

/-- Claim C9 counterexample: two candidates whose exact composite sums
differ by `0.055`, which is less than the rounding granularity `0.1`, are
NOT treated as tied: their sums round to `62.0` and `62.1`, so the second
input candidate is returned first, not in input order. -/
theorem claim_C9_counterexample :
    totalExact tieJob 2024 tieResumeB - totalExact tieJob 2024 tieResumeA = 11/200
    ∧ (11/200 : ℚ) < 1/10
    ∧ (rank_candidates [tieResumeA, tieResumeB] tieJob 2024).map (fun c => c.resume)
        = [normalizeResume tieResumeB, normalizeResume tieResumeA] := by
  refine ⟨?_, by norm_num, ?_⟩
  · rw [total_tieA, total_tieB]
    norm_num
  · have ha : (scoreResume tieJob 2024 tieResumeA).score = 62 := by
      show round1 (totalExact tieJob 2024 tieResumeA) = 62
      rw [total_tieA]
      exact round_tieA
    have hb : (scoreResume tieJob 2024 tieResumeB).score = 621/10 := by
      show round1 (totalExact tieJob 2024 tieResumeB) = 621/10
      rw [total_tieB]
      exact round_tieB
    have hnot : ¬ scoreGe (scoreResume tieJob 2024 tieResumeA)
        (scoreResume tieJob 2024 tieResumeB) := by
      show ¬ ((scoreResume tieJob 2024 tieResumeB).score
        ≤ (scoreResume tieJob 2024 tieResumeA).score)
      rw [ha, hb]
      norm_num
    rw [rank_pair_swap tieJob 2024 hnot]
    rfl

/-- Claim C9 (amended): each scored candidate's reported `score` is the
exact sum of the five sub-scores rounded to one decimal and its
`ats_score` is the ATS sub-score rounded to one decimal; the descending
sort compares these rounded values; and two candidates whose exact sums
round to the SAME one-decimal value (rather than merely differing by less
than the granularity, which `claim_C9_counterexample` refutes) are treated
as tied and ordered by input position. -/
theorem claim_C9_amended (resumes : List PyDict) (job : JobData) (year : ℕ) :
    (∀ r : PyDict, (scoreResume job year r).score = round1 (totalExact job year r)
      ∧ (scoreResume job year r).ats_score
          = round1 (compute_ats_score (normalizeResume r) job))
    ∧ rank_candidates resumes job year
        = addRanksFrom 1 (List.insertionSort scoreGe (resumes.map (scoreResume job year)))
    ∧ (∀ r1 r2 : PyDict,
        round1 (totalExact job year r1) = round1 (totalExact job year r2) →
        rank_candidates [r1, r2] job year
          = addRanksFrom 1 [scoreResume job year r1, scoreResume job year r2]) :=
  ⟨fun _ => ⟨rfl, rfl⟩, rfl, fun _ _ h => rank_pair_eq job year h⟩

/-- Claim C9 witness: the tie clause instantiated on two dictionaries with
equal rounded (indeed equal exact) composite sums. -/
theorem claim_C9_witness :
    rank_candidates [pairResumeB, pairResumeA] tieJob 2024
      = addRanksFrom 1 [scoreResume tieJob 2024 pairResumeB,
          scoreResume tieJob 2024 pairResumeA] :=
  (claim_C9_amended [] tieJob 2024).2.2 pairResumeB pairResumeA
    (congrArg round1 (totalExact_congr tieJob 2024 rfl))

/-- Claim C10: the `resume` field of each output candidate is the freshly
built four-key dictionary: exactly the keys skills, experience, education
and certifications are present; each carries the input's value for that key
unchanged, or the empty list when the key is missing; and any other input
key (such as an email contact field) is absent. -/
theorem claim_C10_resume_frame (resumes : List PyDict) (job : JobData) (year : ℕ) :
    ∀ c ∈ rank_candidates resumes job year, ∃ r ∈ resumes,
      c.resume = normalizeResume r
      ∧ c.resume.map Prod.fst = ["skills", "experience", "education", "certifications"]
      ∧ (∀ k : String, dlookup c.resume k =
          if k = "skills" then some (dictGet r "skills" (PyVal.vList []))
          else if k = "experience" then some (dictGet r "experience" (PyVal.vList []))
          else if k = "education" then some (dictGet r "education" (PyVal.vList []))
          else if k = "certifications" then some (dictGet r "certifications" (PyVal.vList []))
          else none) := by
  intro c hc
  rw [rank_candidates] at hc
  have h2 : toScored c ∈ resumes.map (scoreResume job year) :=
    (List.perm_insertionSort scoreGe _).mem_iff.mp (mem_addRanksFrom hc)
  obtain ⟨r, hr, he⟩ := List.mem_map.mp h2
  have hres : c.resume = normalizeResume r :=
    (congrArg ScoredCandidate.resume he).symm
  refine ⟨r, hr, hres, ?_, ?_⟩
  · rw [hres]
    rfl
  · intro k
    rw [hres]
    exact dlookup_normalizeResume r k

/-- Claim C10 witness: the frame property instantiated on a resume carrying
an extra `email` key, which is absent from the output dictionary. -/
theorem claim_C10_witness :
    ∃ r ∈ [extraKeyResume],
      ((rank_candidates [extraKeyResume] cxJobEmpty 2024).headI).resume = normalizeResume r
      ∧ ((rank_candidates [extraKeyResume] cxJobEmpty 2024).headI).resume.map Prod.fst
          = ["skills", "experience", "education", "certifications"]
      ∧ (∀ k : String,
          dlookup ((rank_candidates [extraKeyResume] cxJobEmpty 2024).headI).resume k =
            if k = "skills" then some (dictGet r "skills" (PyVal.vList []))
            else if k = "experience" then some (dictGet r "experience" (PyVal.vList []))
            else if k = "education" then some (dictGet r "education" (PyVal.vList []))
            else if k = "certifications" then some (dictGet r "certifications" (PyVal.vList []))
            else none) :=
  claim_C10_resume_frame [extraKeyResume] cxJobEmpty 2024 _
    (by rw [rank_single]; exact List.mem_singleton.mpr rfl)
